import Mathlib

/-!
Verification of the core algorithms of the times-esa MCP server
(`utils.go`, `handlers.go`, and the esa client) against its design
specification.

The Go code is shallowly embedded: pure string/number computations become
Lean functions; the mutable debounce map becomes explicit state passing on
an association list; remote HTTP calls become an oracle describing the
remote service's responses together with an explicit trace of the requests
that were issued.  Go `int`/`int64` values that may be compared after
subtraction are modelled as `Int`; `float64` arithmetic on small integer
quotients is modelled exactly with `ℚ`.

The file is organized as the embedding's definitions first, followed by
all theorems.
-/

namespace TimesEsa

/-! ## Definitions: byte lengths (Go `len` on strings is the UTF-8 byte count) -/

/-- Number of bytes of the UTF-8 encoding of a character, as Go computes it. -/
def goCharSize (c : Char) : Nat :=
  if c.toNat ≤ 0x7F then 1
  else if c.toNat ≤ 0x7FF then 2
  else if c.toNat ≤ 0xFFFF then 3
  else 4

/-- Go `len(s)` on a string: the UTF-8 byte length. -/
def goLen (s : String) : Nat :=
  s.data.foldl (fun n c => n + goCharSize c) 0

/-! ## Definitions: Levenshtein distance (`levenshteinDistance` in `utils.go`)

The Go function converts both strings to rune slices and fills a
`(n+1) × (m+1)` dynamic-programming matrix with
`matrix[i][j] = min (matrix[i-1][j]+1) (matrix[i][j-1]+1) (matrix[i-1][j-1]+cost)`.
We compute the same matrix row by row. -/

/-- One step of the DP: given character `c1` of the first string, the remaining
characters of the second string, the corresponding tail of the previous row
(starting at the diagonal element `matrix[i-1][j-1]`), and the value just
computed to the left (`matrix[i][j-1]`), produce the rest of row `i`. -/
def levRowStep (c1 : Char) : List Char → List Nat → Nat → List Nat
  | [], _, _ => []
  | _ :: _, [], _ => []
  | _ :: _, [_], _ => []
  | c2 :: cs, diag :: up :: restPrev, left =>
    let cost := if c1 = c2 then 0 else 1
    let cur := min (up + 1) (min (left + 1) (diag + cost))
    cur :: levRowStep c1 cs (up :: restPrev) cur

/-- Fold over the first string's characters, producing successive DP rows.
`i` is the (1-based) index of the row being produced; each row `i` starts
with `matrix[i][0] = i`. -/
def levRows (r2 : List Char) : List Char → Nat → List Nat → List Nat
  | [], _, prev => prev
  | c1 :: cs, i, prev => levRows r2 cs (i + 1) ((i + 1) :: levRowStep c1 r2 prev (i + 1))

/-- Function `levenshteinDistance` from `utils.go`: rune-based edit distance
with the same early returns as the source (empty-string shortcuts and the
identical-string shortcut). -/
def levenshteinDistance (s1 s2 : String) : Nat :=
  let runes1 := s1.data
  let runes2 := s2.data
  if runes1.length = 0 then runes2.length
  else if runes2.length = 0 then runes1.length
  else if s1 = s2 then 0
  else
    let row0 := List.range (runes2.length + 1)
    (levRows runes2 runes1 0 row0).getLastD 0

/-! ## Definitions: text similarity (`textSimilarity` in `utils.go`)

Go `float64` arithmetic on these small integer quotients is modelled
exactly with rationals. -/

/-- Function `textSimilarity` from `utils.go`.  The emptiness tests
`len(s1) == 0` use Go's byte length (equivalent to emptiness of the
string); the normalising maximum uses rune counts. -/
def textSimilarity (s1 s2 : String) : ℚ :=
  if s1 = s2 then 1
  else if goLen s1 = 0 ∨ goLen s2 = 0 then 0
  else
    let distance := levenshteinDistance s1 s2
    let maxAllowedDistance := max s1.length s2.length
    if maxAllowedDistance ≤ distance then 0
    else 1 - (distance : ℚ) / (maxAllowedDistance : ℚ)

/-- The specification's description of the similarity score, written from
its own wording: `1.0` on identical strings, `0.0` when exactly one side is
empty, otherwise `1 - distance/max(len a, len b)` (lengths in code points),
clamped to `0.0` when `distance ≥ max(len a, len b)`. -/
def similaritySpec (a b : String) : ℚ :=
  if a = b then 1
  else if (a = "" ∧ b ≠ "") ∨ (a ≠ "" ∧ b = "") then 0
  else if max a.length b.length ≤ levenshteinDistance a b then 0
  else 1 - (levenshteinDistance a b : ℚ) / ((max a.length b.length : ℕ) : ℚ)

/-! ## Definitions: debounce state (`isDebounced` in `utils.go`)

The mutable global `debounceMap` becomes an explicit association list from
text to timestamp (in the source every stored `debounceEntry.text` equals
its map key, so an entry is collapsed to the pair key/timestamp).
`time.Time`/`time.Duration` values are modelled as `Int` nanosecond ticks;
`time.Since(t)` at the current instant `now` is `now - t`. -/

/-- Structure `DebounceConfig` from `utils.go`: window duration and the
similarity threshold (a `float64`, modelled exactly as a rational). -/
structure DebounceConfig where
  duration : Int
  similarityThreshold : ℚ

/-- The debounce map: text ↦ timestamp of last acceptance. -/
abbrev DebounceMap := List (String × Int)

/-- Go map read `debounceMap[text]`. -/
def lookupEntry : DebounceMap → String → Option Int
  | [], _ => none
  | (k, t) :: rest, key => if k = key then some t else lookupEntry rest key

/-- Go map write `debounceMap[text] = entry` (overwrite or add). -/
def setEntry : DebounceMap → String → Int → DebounceMap
  | [], key, ts => [(key, ts)]
  | (k, t) :: rest, key, ts =>
    if k = key then (key, ts) :: rest else (k, t) :: setEntry rest key ts

/-- The exact-match branch of `isDebounced`: the map has an entry keyed by
`text` whose age is within the window. -/
def exactHit (cfg : DebounceConfig) (m : DebounceMap) (text : String) (now : Int) : Bool :=
  match lookupEntry m text with
  | some ts => decide (now - ts < cfg.duration)
  | none => false

/-- The similarity loop of `isDebounced`: some live entry passes the
byte-length guard (`len` in Go is the UTF-8 byte count) and scores at or
above the similarity threshold. -/
def similarHit (cfg : DebounceConfig) (m : DebounceMap) (text : String) (now : Int) : Bool :=
  m.any fun e =>
    decide (now - e.2 < cfg.duration) &&
    (decide (1 < goLen text) && decide (1 < goLen e.1) &&
      decide (cfg.similarityThreshold ≤ textSimilarity text e.1))

/-- Function `isDebounced` from `utils.go`, with the map passed and
returned explicitly: returns whether the text is suppressed, and the map
after the call (insertion of the accepted text and opportunistic cleanup of
entries older than twice the window happen only on the accepting path). -/
def isDebounced (cfg : DebounceConfig) (m : DebounceMap) (text : String) (now : Int) :
    Bool × DebounceMap :=
  if text = "" then (true, m)
  else if exactHit cfg m text now then (true, m)
  else if similarHit cfg m text now then (true, m)
  else
    let m' := setEntry m text now
    (false, m'.filter fun e => !decide (cfg.duration * 2 < now - e.2))

/-- The map never holds two entries with the same key (a Go map cannot). -/
def nodupKeys (m : DebounceMap) : Prop :=
  m.Pairwise fun e e' => e.1 ≠ e'.1

/-! ## Definitions: prefix stripping (`stripPrefix` in `utils.go`) -/

/-- Go `unicode.IsSpace`: the Unicode White_Space property
(the ranges of Go's `unicode.White_Space` table). -/
def goIsSpace (c : Char) : Bool :=
  let n := c.toNat
  (decide (0x9 ≤ n) && decide (n ≤ 0xD)) || decide (n = 0x20) || decide (n = 0x85) ||
  decide (n = 0xA0) || decide (n = 0x1680) ||
  (decide (0x2000 ≤ n) && decide (n ≤ 0x200A)) || decide (n = 0x2028) ||
  decide (n = 0x2029) || decide (n = 0x202F) || decide (n = 0x205F) || decide (n = 0x3000)

/-- Function `stripPrefix` from `utils.go`: if `s` starts with `pre`,
remove the occurrence of `pre` (Go slices the bytes after it) and then all
contiguous Unicode whitespace right after it (`strings.TrimLeftFunc` with
`unicode.IsSpace`); otherwise return `s` unchanged. -/
def stripPrefix (s pre : String) : String :=
  if pre.data.isPrefixOf s.data then
    String.mk ((s.data.drop pre.data.length).dropWhile goIsSpace)
  else s

/-! ## Definitions: the esa client (`esa_client.go`)

The remote-facing operations decompose into pure request-content
construction (modelled here) plus HTTP transport (modelled as an oracle in
the workflow definitions below).  A Go `time.Time` is modelled by its local
calendar and clock fields, which is all the code reads from it. -/

/-- The local-time fields the source reads from a `time.Time`. -/
structure GoTime where
  year : Nat
  month : Nat
  day : Nat
  hour : Nat
  minute : Nat
deriving DecidableEq

/-- Go `fmt.Sprintf("%0wd", n)` for a nonnegative integer: the decimal
digits, left-padded with zeros to width `w`. -/
def goPad (w : Nat) (n : Nat) : String :=
  let s := toString n
  if s.length < w then String.mk (List.replicate (w - s.length) '0') ++ s else s

/-- The daily-report category `fmt.Sprintf("日報/%04d/%02d/%02d", ...)`,
as built both in `submitDailyReportWithClock` and in `CreatePost`. -/
def categoryFor (t : GoTime) : String :=
  "日報/" ++ goPad 4 t.year ++ "/" ++ goPad 2 t.month ++ "/" ++ goPad 2 t.day

/-- Modelled from the spec: `GenerateTimestampWithAnchor` is called by
`CreatePost`/`UpdatePost` but its defining file is not among the provided
sources (only its tests, call sites and a design document are).  The spec:
render the zero-padded 24-hour `HH:MM` as label and `HHMM` as anchor id and
href fragment, in the exact format `<a id="HHMM" href="#HHMM">HH:MM</a>`. -/
def GenerateTimestampWithAnchor (t : GoTime) : String :=
  let timeStr := goPad 2 t.hour ++ ":" ++ goPad 2 t.minute
  let anchorId := goPad 2 t.hour ++ goPad 2 t.minute
  "<a id=\"" ++ anchorId ++ "\" href=\"#" ++ anchorId ++ "\">" ++ timeStr ++ "</a>"

/-- Structure `EsaPost` from `types.go`. -/
structure EsaPost where
  body_md : String
  body_html : String
  number : Int
  name : String
  tags : List String
deriving DecidableEq

/-- Structure `EsaSearchResult` from `types.go`. -/
structure EsaSearchResult where
  posts : List EsaPost
  total_count : Int
deriving DecidableEq

/-- Outcome of `SearchPostByCategory`'s result processing: a found/absent
post, the ambiguity error, or a Go runtime panic (index out of range). -/
inductive SearchOutcome where
  | ok : Option EsaPost → SearchOutcome
  | err : String → SearchOutcome
  | panic : SearchOutcome
deriving DecidableEq

/-- The result processing of `SearchPostByCategory` (`esa_client.go`),
applied to a successfully parsed search response: zero matches is absent
(`nil, nil`), more than one is the ambiguity error, otherwise the code
returns `result.Posts[0]` — which panics if the posts slice is empty. -/
def SearchPostByCategoryResult (result : EsaSearchResult) : SearchOutcome :=
  if result.total_count = 0 then .ok none
  else if 1 < result.total_count then .err "複数の日報が存在します"
  else
    match result.posts with
    | [] => .panic
    | p :: _ => .ok (some p)

/-- The JSON body `CreatePost` submits (`post` object of the POST request). -/
structure PostRequestContent where
  name : String
  category : String
  tags : List String
  body_md : String
  wip : Bool
deriving DecidableEq

/-- The request content built by `CreatePost` (`esa_client.go`) from the
submitted text and the `time.Now()` value it reads: category
`日報/YYYY/MM/DD`, title `日報`, no tags, body
`GenerateTimestampWithAnchor(now) + " " + text + "\n\n---"`, `wip: false`. -/
def CreatePostContent (text : String) (now : GoTime) : PostRequestContent :=
  { name := "日報"
    category := categoryFor now
    tags := []
    body_md := GenerateTimestampWithAnchor now ++ " " ++ text ++ "\n\n---"
    wip := false }

/-- The JSON body `UpdatePost` submits (`post` object of the PATCH request). -/
structure UpdateRequestContent where
  body_md : String
  wip : Bool
deriving DecidableEq

/-- The request content built by `UpdatePost` (`esa_client.go`): for
non-empty text the new timestamped text is placed before the existing body,
separated by a horizontal rule; for empty text the body is unchanged. -/
def UpdatePostContent (existingPost : EsaPost) (text : String) (now : GoTime) :
    UpdateRequestContent :=
  { body_md :=
      if text ≠ "" then
        GenerateTimestampWithAnchor now ++ " " ++ text ++ "\n\n---\n\n" ++ existingPost.body_md
      else existingPost.body_md
    wip := false }

/-! ## Definitions: the submit workflow (`submitDailyReportWithClock` in `handlers.go`)

The handler takes the injected time `now` and uses it for the searched
category; `CreatePost` and `UpdatePost` however read `time.Now()` again
internally, modelled by a separate `ambient` time, and `isDebounced`'s
`time.Since`/`time.Now()` calls are modelled by the tick `debounceNow`.
Remote I/O is split into the requests issued (returned as an explicit
trace) and the responses, given by a `RemoteBehavior` oracle. -/

/-- A request issued to the remote service, carrying exactly the data the
source puts into it. -/
inductive RemoteCall where
  | searchReq : String → RemoteCall
  | createReq : PostRequestContent → RemoteCall
  | updateReq : Int → UpdateRequestContent → RemoteCall
deriving DecidableEq

/-- Oracle for the remote service's responses: what the search for a
category parses to, and what create/update return (`Except.error` covers
both transport errors and non-success API responses, whose message the
source code folds into a single error string). -/
structure RemoteBehavior where
  searchResponse : String → Except String EsaSearchResult
  createResponse : PostRequestContent → Except String EsaPost
  updateResponse : Int → UpdateRequestContent → Except String EsaPost

/-- The handler's possible results. -/
inductive SubmitResult where
  | errEmptyText
  | errNotConfirmed
  | errDebounced (seconds : Int)
  | errSearch (msg : String)
  | errCreate (msg : String)
  | errUpdate (msg : String)
  | panicked
  | success (post : EsaPost)
deriving DecidableEq

/-- Go `int(debounceConfig.Duration.Seconds())`: nanosecond ticks to whole
seconds. -/
def durationSeconds (d : Int) : Int := d / 1000000000

/-- Function `submitDailyReportWithClock` from `handlers.go`: validate
non-empty text, require user confirmation, strip the `#times-esa` token,
consult the debounce guard, search today's category (from the injected
`now`), then create or update via the esa client (whose content is stamped
with the `ambient` clock the client reads itself).  Returns the result, the
debounce map after the call, and the trace of remote requests issued. -/
def submitDailyReportWithClock (text0 : String) (confirmedByUser : Bool)
    (now ambient : GoTime) (debounceNow : Int) (cfg : DebounceConfig) (m : DebounceMap)
    (remote : RemoteBehavior) : SubmitResult × DebounceMap × List RemoteCall :=
  if text0 = "" then (.errEmptyText, m, [])
  else if !confirmedByUser then (.errNotConfirmed, m, [])
  else
    let text := stripPrefix text0 "#times-esa"
    let deb := isDebounced cfg m text debounceNow
    if deb.1 then (.errDebounced (durationSeconds cfg.duration), deb.2, [])
    else
      let category := categoryFor now
      match remote.searchResponse category with
      | .error e => (.errSearch ("投稿の検索に失敗しました: " ++ e), deb.2, [.searchReq category])
      | .ok result =>
        match SearchPostByCategoryResult result with
        | .err e =>
          (.errSearch ("投稿の検索に失敗しました: " ++ e), deb.2, [.searchReq category])
        | .panic => (.panicked, deb.2, [.searchReq category])
        | .ok none =>
          let content := CreatePostContent text ambient
          match remote.createResponse content with
          | .error e => (.errCreate ("新規投稿の作成に失敗しました: " ++ e), deb.2,
              [.searchReq category, .createReq content])
          | .ok post => (.success post, deb.2, [.searchReq category, .createReq content])
        | .ok (some existingPost) =>
          let content := UpdatePostContent existingPost text ambient
          match remote.updateResponse existingPost.number content with
          | .error e => (.errUpdate ("投稿の更新に失敗しました: " ++ e), deb.2,
              [.searchReq category, .updateReq existingPost.number content])
          | .ok post => (.success post, deb.2,
              [.searchReq category, .updateReq existingPost.number content])

/-- A test double in the sense of the spec's design notes: search reports
no match, create echoes the requested content back as the created post
(stashing the requested category in the returned `name`). -/
def echoRemote : RemoteBehavior :=
  { searchResponse := fun _ => .ok ⟨[], 0⟩
    createResponse := fun content => .ok ⟨content.body_md, "", 1, content.category, content.tags⟩
    updateResponse := fun _ _ => .error "unused" }

/-! ## Theorems: byte lengths -/

theorem goCharSize_pos (c : Char) : 0 < goCharSize c := by
  unfold goCharSize
  split <;> [decide; split <;> [decide; split <;> decide]]

theorem goLen_append_aux (l : List Char) (n : Nat) :
    l.foldl (fun n c => n + goCharSize c) n = n + l.foldl (fun n c => n + goCharSize c) 0 := by
  induction l generalizing n with
  | nil => simp
  | cons c cs ih =>
    simp only [List.foldl_cons]
    rw [ih (n + goCharSize c), ih (0 + goCharSize c)]
    omega

theorem goLen_eq_zero_iff (s : String) : goLen s = 0 ↔ s = "" := by
  constructor
  · intro h
    cases s with
    | mk data =>
      cases data with
      | nil => rfl
      | cons c cs =>
        exfalso
        unfold goLen at h
        simp only [List.foldl_cons, Nat.zero_add] at h
        rw [goLen_append_aux] at h
        have := goCharSize_pos c
        omega
  · intro h; subst h; rfl

/-! ## Theorems: distance and similarity -/

example : levenshteinDistance "kitten" "sitten" = 1 := by decide
example : levenshteinDistance "テストです" "ベストです" = 1 := by decide
example : levenshteinDistance "abc" "" = 3 := by decide

theorem textSimilarity_eq_similaritySpec (a b : String) :
    textSimilarity a b = similaritySpec a b := by
  simp only [textSimilarity, similaritySpec]
  by_cases hab : a = b
  · rw [if_pos hab, if_pos hab]
  · rw [if_neg hab, if_neg hab]
    have key : (goLen a = 0 ∨ goLen b = 0) ↔ ((a = "" ∧ b ≠ "") ∨ (a ≠ "" ∧ b = "")) := by
      rw [goLen_eq_zero_iff, goLen_eq_zero_iff]
      constructor
      · rintro (h | h)
        · exact Or.inl ⟨h, fun hb' => hab (h.trans hb'.symm)⟩
        · exact Or.inr ⟨fun ha' => hab (ha'.trans h.symm), h⟩
      · rintro (⟨h, _⟩ | ⟨_, h⟩)
        · exact Or.inl h
        · exact Or.inr h
    by_cases h1 : goLen a = 0 ∨ goLen b = 0
    · rw [if_pos h1, if_pos (key.mp h1)]
    · rw [if_neg h1, if_neg (fun hc => h1 (key.mpr hc))]

/-- C5: for every pair of strings, `textSimilarity` equals 1 on identical
strings (including both empty), 0 when exactly one side is empty, and
otherwise `1 - distance/max(len a, len b)` with lengths in Unicode code
points, clamped to 0 when `distance ≥ max(len a, len b)`; in particular
`textSimilarity "テストです" "ベストです" = 0.8`. -/
theorem textSimilarity_matches_spec :
    (∀ a b : String, textSimilarity a b = similaritySpec a b) ∧
    textSimilarity "テストです" "ベストです" = 4/5 ∧
    textSimilarity "テスト" "" = 0 ∧
    textSimilarity "" "" = 1 := by
  refine ⟨textSimilarity_eq_similaritySpec, ?_, ?_, ?_⟩
  · simp only [textSimilarity]
    rw [if_neg (by decide), if_neg (by decide),
      show levenshteinDistance "テストです" "ベストです" = 1 from by decide,
      show max ("テストです".length) ("ベストです".length) = 5 from by decide,
      if_neg (by decide)]
    norm_num
  · simp only [textSimilarity]
    rw [if_neg (by decide), if_pos (by decide)]
  · simp only [textSimilarity]
    rw [if_pos (by decide)]

/-! ## Theorems: the debounce map -/

theorem lookupEntry_setEntry (m : DebounceMap) (key : String) (ts : Int) (k : String) :
    lookupEntry (setEntry m key ts) k = if key = k then some ts else lookupEntry m k := by
  induction m with
  | nil => by_cases h : key = k <;> simp [setEntry, lookupEntry, h]
  | cons e rest ih =>
    obtain ⟨k₀, t₀⟩ := e
    by_cases h : k₀ = key
    · subst h
      by_cases hk : k₀ = k
      · subst hk; simp [setEntry, lookupEntry]
      · simp [setEntry, lookupEntry, hk]
    · by_cases hk : k₀ = k
      · subst hk
        have hk' : ¬key = k₀ := fun he => h he.symm
        simp [setEntry, lookupEntry, h, hk']
      · simp [setEntry, lookupEntry, h, hk, ih]

theorem mem_setEntry {m : DebounceMap} {key : String} {ts : Int} {e : String × Int}
    (h : e ∈ setEntry m key ts) : e.1 = key ∨ e ∈ m := by
  induction m with
  | nil =>
    simp only [setEntry, List.mem_singleton] at h
    subst h; exact Or.inl rfl
  | cons e₀ rest ih =>
    obtain ⟨k₀, t₀⟩ := e₀
    by_cases hk : k₀ = key
    · simp only [setEntry, if_pos hk, List.mem_cons] at h
      rcases h with rfl | h
      · exact Or.inl rfl
      · exact Or.inr (List.mem_cons_of_mem _ h)
    · simp only [setEntry, if_neg hk, List.mem_cons] at h
      rcases h with rfl | h
      · exact Or.inr (List.mem_cons_self _ _)
      · rcases ih h with h' | h'
        · exact Or.inl h'
        · exact Or.inr (List.mem_cons_of_mem _ h')

theorem nodupKeys_setEntry {m : DebounceMap} (hm : nodupKeys m) (key : String) (ts : Int) :
    nodupKeys (setEntry m key ts) := by
  induction m with
  | nil => simp [setEntry, nodupKeys]
  | cons e₀ rest ih =>
    obtain ⟨k₀, t₀⟩ := e₀
    have hhead := (List.pairwise_cons.mp hm).1
    have htail := (List.pairwise_cons.mp hm).2
    by_cases hk : k₀ = key
    · subst hk
      simp only [setEntry, if_pos rfl]
      exact List.pairwise_cons.mpr ⟨hhead, htail⟩
    · simp only [setEntry, if_neg hk]
      refine List.pairwise_cons.mpr ⟨?_, ih htail⟩
      intro e he
      rcases mem_setEntry he with h' | h'
      · exact fun hcon => hk (hcon.trans h')
      · exact hhead e h'

theorem lookupEntry_eq_none_of_no_key (m : DebounceMap) (k : String)
    (h : ∀ e ∈ m, e.1 ≠ k) : lookupEntry m k = none := by
  induction m with
  | nil => rfl
  | cons e rest ih =>
    obtain ⟨k₀, t₀⟩ := e
    simp only [lookupEntry]
    rw [if_neg (h (k₀, t₀) (List.mem_cons_self _ _))]
    exact ih fun e he => h e (List.mem_cons_of_mem _ he)

theorem lookupEntry_none_filter (m : DebounceMap) (p : String × Int → Bool) (k : String)
    (h : lookupEntry m k = none) : lookupEntry (m.filter p) k = none := by
  induction m with
  | nil => simp [lookupEntry]
  | cons e rest ih =>
    obtain ⟨k₀, t₀⟩ := e
    simp only [lookupEntry] at h
    by_cases hk : k₀ = k
    · rw [if_pos hk] at h; simp at h
    · rw [if_neg hk] at h
      by_cases hp : p (k₀, t₀)
      · rw [List.filter_cons_of_pos hp]
        simp only [lookupEntry, if_neg hk]
        exact ih h
      · rw [List.filter_cons_of_neg hp]
        exact ih h

theorem lookupEntry_filter (m : DebounceMap) (hm : nodupKeys m) (p : String × Int → Bool)
    (k : String) :
    lookupEntry (m.filter p) k =
      match lookupEntry m k with
      | none => none
      | some ts => if p (k, ts) then some ts else none := by
  induction m with
  | nil => simp [lookupEntry]
  | cons e rest ih =>
    obtain ⟨k₀, t₀⟩ := e
    have hhead := (List.pairwise_cons.mp hm).1
    have htail := (List.pairwise_cons.mp hm).2
    by_cases hk : k₀ = k
    · subst hk
      have hrest : lookupEntry rest k₀ = none :=
        lookupEntry_eq_none_of_no_key rest k₀ fun e he => Ne.symm (hhead e he)
      by_cases hp : p (k₀, t₀)
      · rw [List.filter_cons_of_pos hp]
        simp [lookupEntry, hp]
      · rw [List.filter_cons_of_neg hp]
        rw [lookupEntry_none_filter rest p k₀ hrest]
        simp [lookupEntry, hp]
    · by_cases hp : p (k₀, t₀)
      · rw [List.filter_cons_of_pos hp]
        simp only [lookupEntry, if_neg hk]
        exact ih htail
      · rw [List.filter_cons_of_neg hp]
        rw [ih htail]
        simp only [lookupEntry, if_neg hk]

theorem isDebounced_empty (cfg : DebounceConfig) (m : DebounceMap) (now : Int) :
    isDebounced cfg m "" now = (true, m) := by
  simp [isDebounced]

/-- C4: `isDebounced` leaves the map untouched whenever it suppresses (in
particular the empty text is always suppressed and never recorded); when it
allows, the map afterwards holds the text at the current time, entries
older than twice the window are gone, and nothing else changed. -/
theorem isDebounced_frame_effect (cfg : DebounceConfig) (m : DebounceMap) (text : String)
    (now : Int) (hnodup : nodupKeys m) (hdur : 0 ≤ cfg.duration) :
    isDebounced cfg m "" now = (true, m) ∧
    ((isDebounced cfg m text now).1 = true → (isDebounced cfg m text now).2 = m) ∧
    ((isDebounced cfg m text now).1 = false →
      ∀ k, lookupEntry (isDebounced cfg m text now).2 k =
        if k = text then some now
        else
          match lookupEntry m k with
          | none => none
          | some ts => if cfg.duration * 2 < now - ts then none else some ts) := by
  refine ⟨by simp [isDebounced], ?_, ?_⟩
  · intro h
    by_cases h0 : text = ""
    · simp [isDebounced, h0]
    · by_cases h1 : exactHit cfg m text now
      · simp [isDebounced, h0, h1]
      · by_cases h2 : similarHit cfg m text now
        · simp [isDebounced, h0, h1, h2]
        · simp [isDebounced, h0, h1, h2] at h
  · intro hfalse k
    by_cases h0 : text = ""
    · simp [isDebounced, h0] at hfalse
    · by_cases h1 : exactHit cfg m text now
      · simp [isDebounced, h0, h1] at hfalse
      · by_cases h2 : similarHit cfg m text now
        · simp [isDebounced, h0, h1, h2] at hfalse
        · have hstate : (isDebounced cfg m text now).2 =
              (setEntry m text now).filter fun e => !decide (cfg.duration * 2 < now - e.2) := by
            simp [isDebounced, h0, h1, h2]
          rw [hstate,
            lookupEntry_filter _ (nodupKeys_setEntry hnodup text now) _ k,
            lookupEntry_setEntry]
          by_cases hk : k = text
          · subst hk
            have hkeep : ¬(cfg.duration * 2 < now - now) := by omega
            simp [hkeep]
            omega
          · have hk' : ¬text = k := fun he => hk he.symm
            rw [if_neg hk', if_neg hk]
            cases hmk : lookupEntry m k with
            | none => rfl
            | some ts =>
              by_cases hage : cfg.duration * 2 < now - ts
              · simp [hage]
              · simp [hage]

/-- Witness for `isDebounced_frame_effect` at a concrete accepting call. -/
theorem isDebounced_frame_effect_witness :
    lookupEntry (isDebounced ⟨10, 9/10⟩ [] "abc" 0).2 "abc" = some 0 := by
  have h := (isDebounced_frame_effect ⟨10, 9/10⟩ [] "abc" 0 List.Pairwise.nil
    (by decide)).2.2 (by decide) "abc"
  simpa using h

/-- C6 counterexample: a text of exactly one Unicode code point (the
three-byte character あ), with no exact-match entry in the map, is still
suppressed — the similarity branch fires because the length exemption in
the source tests Go byte length, not code-point length. -/
theorem singleCodePoint_similarity_suppressed :
    ("あ" : String).length = 1 ∧
    lookupEntry [("ああ", (0 : Int))] "あ" = none ∧
    (isDebounced ⟨10, 1/2⟩ [("ああ", 0)] "あ" 1).1 = true := by
  refine ⟨by decide, by decide, ?_⟩
  have hsim : textSimilarity "あ" "ああ" = 1/2 := by
    simp only [textSimilarity]
    rw [if_neg (by decide), if_neg (by decide),
      show levenshteinDistance "あ" "ああ" = 1 from by decide,
      show max ("あ".length) ("ああ".length) = 2 from by decide,
      if_neg (by decide)]
    norm_num
  have hex : exactHit ⟨10, 1/2⟩ [("ああ", 0)] "あ" 1 = false := by decide
  have hhit : similarHit ⟨10, 1/2⟩ [("ああ", 0)] "あ" 1 = true := by
    simp only [similarHit, List.any_cons, List.any_nil, Bool.or_false]
    rw [hsim, show goLen "あ" = 3 from by decide, show goLen "ああ" = 6 from by decide]
    norm_num
  simp only [isDebounced]
  rw [if_neg (show ¬("あ" : String) = "" from by decide), hex,
    if_neg Bool.false_ne_true, hhit, if_pos rfl]

/-- C6 (amended): every suppression is due to the empty text, an exact
fresh match, or the similarity branch, and the similarity branch requires
both the incoming and the stored text to have UTF-8 byte length greater
than 1 (Go `len`), not code-point length. -/
theorem isDebounced_suppression_cases (cfg : DebounceConfig) (m : DebounceMap)
    (text : String) (now : Int) (h : (isDebounced cfg m text now).1 = true) :
    text = "" ∨
    (∃ ts, lookupEntry m text = some ts ∧ now - ts < cfg.duration) ∨
    (1 < goLen text ∧ ∃ e ∈ m, 1 < goLen e.1 ∧ now - e.2 < cfg.duration ∧
      cfg.similarityThreshold ≤ textSimilarity text e.1) := by
  by_cases h0 : text = ""
  · exact Or.inl h0
  · by_cases h1 : exactHit cfg m text now
    · refine Or.inr (Or.inl ?_)
      unfold exactHit at h1
      cases hmk : lookupEntry m text with
      | none => rw [hmk] at h1; simp at h1
      | some ts =>
        rw [hmk] at h1
        exact ⟨ts, rfl, of_decide_eq_true h1⟩
    · by_cases h2 : similarHit cfg m text now
      · refine Or.inr (Or.inr ?_)
        unfold similarHit at h2
        rw [List.any_eq_true] at h2
        obtain ⟨e, hem, he⟩ := h2
        rw [Bool.and_eq_true, Bool.and_eq_true, Bool.and_eq_true] at he
        obtain ⟨hA, ⟨hB, hC⟩, hD⟩ := he
        exact ⟨of_decide_eq_true hB, e, hem, of_decide_eq_true hC,
          of_decide_eq_true hA, of_decide_eq_true hD⟩
      · simp [isDebounced, h0, h1, h2] at h

/-- Witness for `isDebounced_suppression_cases` at a concrete suppressed call. -/
theorem isDebounced_suppression_cases_witness :
    ("abc" : String) = "" ∨
    (∃ ts, lookupEntry [("abc", (0 : Int))] "abc" = some ts ∧ (1 : Int) - ts < 10) ∨
    (1 < goLen "abc" ∧ ∃ e ∈ [("abc", (0 : Int))], 1 < goLen e.1 ∧ (1 : Int) - e.2 < 10 ∧
      (9/10 : ℚ) ≤ textSimilarity "abc" e.1) :=
  isDebounced_suppression_cases ⟨10, 9/10⟩ [("abc", 0)] "abc" 1 (by decide)

/-! ## Theorems: prefix stripping -/

theorem stripPrefix_append (r : List Char) :
    stripPrefix (String.mk ("#times-esa".data ++ r)) "#times-esa" =
      String.mk (r.dropWhile goIsSpace) := by
  have hpre : ("#times-esa".data.isPrefixOf (String.mk ("#times-esa".data ++ r)).data) =
      true := by
    rw [List.isPrefixOf_iff_prefix]
    exact List.prefix_append _ _
  simp only [stripPrefix]
  rw [if_pos hpre]
  congr 1

theorem stripPrefix_of_no_token (s : String)
    (h : "#times-esa".data.isPrefixOf s.data = false) : stripPrefix s "#times-esa" = s := by
  simp only [stripPrefix]
  rw [if_neg (fun hc => Bool.false_ne_true (h ▸ hc))]

/-- C7: a string starting with the exact token `#times-esa` loses the token
and the contiguous whitespace right after it, with the remainder kept
verbatim; any other string is returned unchanged; including the spec's
three concrete cases. -/
theorem stripPrefix_spec :
    (∀ r : List Char,
      stripPrefix (String.mk ("#times-esa".data ++ r)) "#times-esa" =
        String.mk (r.dropWhile goIsSpace)) ∧
    (∀ s : String, "#times-esa".data.isPrefixOf s.data = false →
      stripPrefix s "#times-esa" = s) ∧
    stripPrefix "#times-esa  こんにちは" "#times-esa" = "こんにちは" ∧
    stripPrefix "こんにちは" "#times-esa" = "こんにちは" ∧
    stripPrefix "#times-esaaa こんにちは" "#times-esa" = "aa こんにちは" :=
  ⟨stripPrefix_append, stripPrefix_of_no_token, by decide, by decide, by decide⟩

/-- Witness for `stripPrefix_spec` on a string not carrying the token. -/
theorem stripPrefix_spec_witness :
    ("#times-esa".data.isPrefixOf ("こんにちは" : String).data) = false ∧
    stripPrefix "こんにちは" "#times-esa" = "こんにちは" :=
  ⟨by decide, stripPrefix_spec.2.1 "こんにちは" (by decide)⟩

/-! ## Theorems: the esa client -/

example : goPad 4 2025 = "2025" := by decide
example : goPad 2 6 = "06" := by decide
example : GenerateTimestampWithAnchor ⟨2024, 1, 1, 9, 30⟩ =
    "<a id=\"0930\" href=\"#0930\">09:30</a>" := by decide

/-- C1: given the remote's reported search result, `SearchPostByCategory`
returns absent on zero matches, the single entry on exactly one match, and
fails with the ambiguity error `複数の日報が存在します` whenever
`total_count > 1`, never picking one of the matches. -/
theorem searchPostByCategory_cases (r : EsaSearchResult) :
    (r.total_count = 0 → SearchPostByCategoryResult r = .ok none) ∧
    (r.total_count = 1 → ∀ p rest, r.posts = p :: rest →
      SearchPostByCategoryResult r = .ok (some p)) ∧
    (1 < r.total_count → SearchPostByCategoryResult r = .err "複数の日報が存在します") := by
  refine ⟨?_, ?_, ?_⟩
  · intro h
    simp [SearchPostByCategoryResult, h]
  · intro h p rest hp
    simp [SearchPostByCategoryResult, h, hp]
  · intro h
    have h0 : ¬r.total_count = 0 := by omega
    simp [SearchPostByCategoryResult, h0, h]

/-- Witness for `searchPostByCategory_cases` on concrete responses. -/
theorem searchPostByCategory_cases_witness :
    SearchPostByCategoryResult ⟨[], 0⟩ = .ok none ∧
    SearchPostByCategoryResult ⟨[⟨"b", "", 1, "日報", []⟩], 1⟩ =
      .ok (some ⟨"b", "", 1, "日報", []⟩) ∧
    SearchPostByCategoryResult ⟨[⟨"b", "", 1, "日報", []⟩, ⟨"c", "", 2, "日報", []⟩], 2⟩ =
      .err "複数の日報が存在します" :=
  ⟨(searchPostByCategory_cases ⟨[], 0⟩).1 rfl,
   (searchPostByCategory_cases _).2.1 rfl ⟨"b", "", 1, "日報", []⟩ [] rfl,
   (searchPostByCategory_cases _).2.2 (by decide)⟩

/-- C9: with `total_count = 1` the code indexes `result.Posts[0]` without a
guard: a non-empty posts list yields that first post, while an empty posts
list is handled by no error branch and panics (index out of range). -/
theorem searchPostByCategory_unguarded_index (r : EsaSearchResult)
    (h : r.total_count = 1) :
    (r.posts = [] → SearchPostByCategoryResult r = .panic) ∧
    (∀ p rest, r.posts = p :: rest → SearchPostByCategoryResult r = .ok (some p)) := by
  constructor
  · intro hp
    simp [SearchPostByCategoryResult, h, hp]
  · intro p rest hp
    simp [SearchPostByCategoryResult, h, hp]

/-- Witness for `searchPostByCategory_unguarded_index`: a reported single
match with an empty posts list reaches the panic. -/
theorem searchPostByCategory_unguarded_index_witness :
    SearchPostByCategoryResult ⟨[], 1⟩ = .panic :=
  (searchPostByCategory_unguarded_index ⟨[], 1⟩ rfl).1 rfl

/-- C2: `CreatePost` builds an entry with category `日報/YYYY/MM/DD`
(zero-padded) from the time it reads, fixed title `日報`, no tags, and body
`timestampAnchor + " " + text + "\n\n---"`; submitting テスト投稿内容 at
13:00 yields exactly the spec's body string. -/
theorem createPost_content_spec :
    (∀ (text : String) (t : GoTime), text ≠ "" →
      CreatePostContent text t =
        { name := "日報"
          category := "日報/" ++ goPad 4 t.year ++ "/" ++ goPad 2 t.month ++ "/" ++
            goPad 2 t.day
          tags := []
          body_md := GenerateTimestampWithAnchor t ++ " " ++ text ++ "\n\n---"
          wip := false }) ∧
    CreatePostContent "テスト投稿内容" ⟨2025, 6, 1, 13, 0⟩ =
      { name := "日報"
        category := "日報/2025/06/01"
        tags := []
        body_md := "<a id=\"1300\" href=\"#1300\">13:00</a> テスト投稿内容\n\n---"
        wip := false } := by
  exact ⟨fun text t _ => rfl, by decide⟩

/-- Witness for `createPost_content_spec` at a concrete non-empty text. -/
theorem createPost_content_spec_witness :
    CreatePostContent "テスト投稿内容" ⟨2025, 6, 1, 13, 0⟩ =
      { name := "日報"
        category := "日報/" ++ goPad 4 2025 ++ "/" ++ goPad 2 6 ++ "/" ++ goPad 2 1
        tags := []
        body_md := GenerateTimestampWithAnchor ⟨2025, 6, 1, 13, 0⟩ ++ " " ++
          "テスト投稿内容" ++ "\n\n---"
        wip := false } :=
  createPost_content_spec.1 "テスト投稿内容" ⟨2025, 6, 1, 13, 0⟩ (by decide)

/-- C3: `UpdatePost` submits `timestampAnchor + " " + text + "\n\n---\n\n"`
followed by the existing body verbatim (so new content strictly precedes
all prior content), and for empty text submits the existing body
unchanged; including the spec's append scenario at 13:00. -/
theorem updatePost_body_spec :
    (∀ (p : EsaPost) (text : String) (t : GoTime), text ≠ "" →
      UpdatePostContent p text t =
        { body_md := GenerateTimestampWithAnchor t ++ " " ++ text ++ "\n\n---\n\n" ++
            p.body_md
          wip := false }) ∧
    (∀ (p : EsaPost) (t : GoTime),
      UpdatePostContent p "" t = { body_md := p.body_md, wip := false }) ∧
    UpdatePostContent ⟨"<a id=\"1000\" href=\"#1000\">10:00</a> 既存の内容\n\n---",
        "", 1, "日報", []⟩ "テスト追記内容" ⟨2025, 6, 1, 13, 0⟩ =
      { body_md := "<a id=\"1300\" href=\"#1300\">13:00</a> テスト追記内容\n\n---\n\n" ++
          "<a id=\"1000\" href=\"#1000\">10:00</a> 既存の内容\n\n---"
        wip := false } := by
  refine ⟨?_, ?_, by decide⟩
  · intro p text t h
    simp [UpdatePostContent, h]
  · intro p t
    simp [UpdatePostContent]

/-- Witness for `updatePost_body_spec` at a concrete non-empty text. -/
theorem updatePost_body_spec_witness :
    UpdatePostContent ⟨"old", "", 1, "日報", []⟩ "x" ⟨2025, 6, 1, 13, 0⟩ =
      { body_md := GenerateTimestampWithAnchor ⟨2025, 6, 1, 13, 0⟩ ++ " " ++ "x" ++
          "\n\n---\n\n" ++ "old"
        wip := false } :=
  updatePost_body_spec.1 ⟨"old", "", 1, "日報", []⟩ "x" ⟨2025, 6, 1, 13, 0⟩ (by decide)

/-! ## Theorems: the submit workflow -/

/-- C8 counterexample: with injected time 2025-06-01 23:59 but ambient
clock 2025-06-02 00:00, the workflow searches the category for June 1 yet
issues a create request whose category is June 2 and whose timestamp anchor
is 00:00 — neither derived from the injected `now`. -/
theorem create_uses_ambient_clock_counterexample :
    (submitDailyReportWithClock "テスト投稿内容" true ⟨2025, 6, 1, 23, 59⟩ ⟨2025, 6, 2, 0, 0⟩ 0
        ⟨10, 9/10⟩ [] echoRemote).2.2 =
      [.searchReq "日報/2025/06/01",
       .createReq { name := "日報"
                    category := "日報/2025/06/02"
                    tags := []
                    body_md := "<a id=\"0000\" href=\"#0000\">00:00</a> テスト投稿内容\n\n---"
                    wip := false }] ∧
    categoryFor ⟨2025, 6, 1, 23, 59⟩ ≠ "日報/2025/06/02" ∧
    GenerateTimestampWithAnchor ⟨2025, 6, 1, 23, 59⟩ ≠
      "<a id=\"0000\" href=\"#0000\">00:00</a>" := by
  refine ⟨by decide, by decide, by decide⟩

/-- C8 (amended): in every invocation the searched category is derived from
the injected `now`, while the content of any create or update request is
derived from the `ambient` clock the client reads internally — so results
are reproducible only when the ambient clock agrees with the injected time. -/
theorem submit_trace_time_sources (text0 : String) (confirmedByUser : Bool)
    (now ambient : GoTime) (debounceNow : Int) (cfg : DebounceConfig) (m : DebounceMap)
    (remote : RemoteBehavior) :
    (submitDailyReportWithClock text0 confirmedByUser now ambient debounceNow cfg m
        remote).2.2 = [] ∨
    (submitDailyReportWithClock text0 confirmedByUser now ambient debounceNow cfg m
        remote).2.2 = [.searchReq (categoryFor now)] ∨
    (submitDailyReportWithClock text0 confirmedByUser now ambient debounceNow cfg m
        remote).2.2 =
      [.searchReq (categoryFor now),
       .createReq (CreatePostContent ( stripPrefix text0 "#times-esa") ambient)] ∨
    ∃ existingPost,
      (submitDailyReportWithClock text0 confirmedByUser now ambient debounceNow cfg m
          remote).2.2 =
        [.searchReq (categoryFor now),
         .updateReq existingPost.number
           (UpdatePostContent existingPost ( stripPrefix text0 "#times-esa") ambient)] := by
  simp only [submitDailyReportWithClock]
  repeat' split
  all_goals
    first
      | exact Or.inl rfl
      | exact Or.inr (Or.inl rfl)
      | exact Or.inr (Or.inr (Or.inl rfl))
      | exact Or.inr (Or.inr (Or.inr ⟨_, rfl⟩))

theorem dropWhile_all {p : Char → Bool} :
    ∀ l : List Char, (∀ c ∈ l, p c = true) → l.dropWhile p = []
  | [], _ => rfl
  | c :: cs, h => by
    simp only [List.dropWhile_cons, h c (List.mem_cons_self _ _), if_true]
    exact dropWhile_all cs fun c hc => h c (List.mem_cons_of_mem _ hc)

/-- C10: a non-empty submission consisting of the `#times-esa` token
followed only by whitespace passes the empty-text validation (with the
confirmation flag set), normalizes to the empty string, and fails with the
debounce error: the debounce map is unchanged and no remote request is
issued, whatever the remote would have answered. -/
theorem submit_token_only_is_debounced (ws : List Char) (now ambient : GoTime)
    (debounceNow : Int) (cfg : DebounceConfig) (m : DebounceMap) (remote : RemoteBehavior)
    (hws : ∀ c ∈ ws, goIsSpace c = true) :
    submitDailyReportWithClock (String.mk ("#times-esa".data ++ ws)) true now ambient
      debounceNow cfg m remote =
      (.errDebounced (durationSeconds cfg.duration), m, []) := by
  have hne : ¬(String.mk ("#times-esa".data ++ ws) = "") := by
    intro h
    have hd := congrArg String.data h
    simp at hd
  have hstrip : stripPrefix (String.mk ("#times-esa".data ++ ws)) "#times-esa" = "" := by
    rw [stripPrefix_append ws, dropWhile_all ws hws]
  simp only [submitDailyReportWithClock]
  rw [if_neg hne]
  simp only [Bool.not_true]
  rw [if_neg Bool.false_ne_true, hstrip, isDebounced_empty]
  rfl

/-- Witness for `submit_token_only_is_debounced` with two trailing spaces. -/
theorem submit_token_only_is_debounced_witness :
    submitDailyReportWithClock (String.mk ("#times-esa".data ++ [' ', ' '])) true
      ⟨2025, 6, 1, 13, 0⟩ ⟨2025, 6, 1, 13, 0⟩ 0 ⟨10, 9/10⟩ [] echoRemote =
      (.errDebounced (durationSeconds 10), [], []) :=
  submit_token_only_is_debounced [' ', ' '] ⟨2025, 6, 1, 13, 0⟩ ⟨2025, 6, 1, 13, 0⟩ 0
    ⟨10, 9/10⟩ [] echoRemote (by decide)

end TimesEsa
